import Mathlib

/-!
Shallow embedding of the `hints` repository (Rust) for specification checking.

The repository shows "hint" images for the current aircraft in a floating
window.  The embedded parts are:

* `src/common/src/hints.rs`   — `Hint` (image + lazily created texture handle);
* `src/common/src/app.rs`     — `Hints` (list of hints + current index),
  `reload` and `handle_hints_event`;
* `src/hints/src/app.rs`      — the older `Hints` variant (no `Reload` event);
* `src/common/src/concurrent.rs` — `thread_loader` (background loader thread);
* `src/common/src/lib.rs`     — `get_offset_from_edge` and the edge constants;
* `src/plugin/src/lib.rs`     — `SystemWrapper` window-state save/load/reset.

File paths are modelled as natural numbers (`HPath`): the only operations the
code performs on them are equality, ordering (for `files.sort()`) and lookup
in an environment, all of which `Nat` supplies.  The filesystem, the image
decoder and the X-Plane environment are explicit parameters (`Env`).
-/

/-- A renderer-side texture handle (`imgui::TextureId`), abstracted to its id. -/
structure TextureId where
  id : Nat
deriving DecidableEq

/-- An RGBA image decoded into memory (`image::RgbaImage`), abstracted to its
dimensions and pixel data. -/
structure RgbaImage where
  width : Nat
  height : Nat
  data : List Nat
deriving DecidableEq

/-- Paths (`std::path::PathBuf`), modelled as naturals: the code only compares,
orders (`files.sort()`) and looks them up. -/
abbrev HPath : Type := Nat

/-- `src/common/src/hints.rs`: `Hint { image: RgbaImage, texture_id:
Cell<Option<TextureId>> }`. -/
structure Hint where
  image : RgbaImage
  texture_id : Option TextureId
deriving DecidableEq

/-- The image decoder `image::open(path)?.into_rgba8()`: `none` models a
decoding failure (`ImageError`). -/
def Decoder : Type := HPath → Option RgbaImage

/-- `Hint::new`: decodes the image; on success the texture cell starts out
`None` (`Cell::new(None)`); on failure no `Hint` is produced. -/
def Hint.new (decode : Decoder) (path : HPath) : Option Hint :=
  (decode path).map (fun image => { image := image, texture_id := none })

/-- `Hint::dimensions`. -/
def Hint.dimensions (h : Hint) : Nat × Nat :=
  (h.image.width, h.image.height)

/-- `Hint::deallocate_texture`: `self.texture_id.take()` empties the cell (the
renderer-side deallocation itself has no further observable state here). -/
def Hint.deallocate_texture (h : Hint) : Hint :=
  { h with texture_id := none }

/-- Outcome of one call to `Hint::texture_id`: the returned value, the cell
contents after the call, and whether `create_texture` was invoked. -/
structure TexLookup where
  result : Option TextureId
  cell : Option TextureId
  invoked : Bool
deriving DecidableEq

/-- `Hint::texture_id` as a function of the cell contents and of the result
`create` that `create_texture` would produce (`none` models `Err`):
if the cell holds a handle it is returned unchanged without invoking
`create_texture`; otherwise `create_texture` is invoked and its result (an
`Option`) replaces the cell contents and is returned. -/
def Hint.textureLookup (create : Option TextureId) (cell : Option TextureId) : TexLookup :=
  match cell with
  | some tid => { result := some tid, cell := some tid, invoked := false }
  | none => { result := create, cell := create, invoked := true }

/-- `src/common/src/app.rs`: `Hints { path, hints: Arc<Mutex<Vec<Hint>>>,
current_hint_idx }`.  The mutex-guarded vector is modelled as the list it
guards. -/
structure HintsState where
  path : HPath
  hints : List Hint
  current_hint_idx : Nat
deriving DecidableEq

/-- `src/common/src/app.rs`: `HintsEvent`. -/
inductive HintsEvent where
  | NextHint
  | PreviousHint
  | Reload
deriving DecidableEq

/-- Environment of the app: directory listing (`std::fs::read_dir`), image
decoder, and directory test (`path.is_dir()`). -/
structure Env where
  readDir : HPath → List HPath
  decode : Decoder
  isDir : HPath → Bool

/-- The closure that `Hints::reload` hands to `thread_loader`: decode the path
with `Hint::new`; push the hint on success, log and skip on failure. -/
def reloadWorker (decode : Decoder) (hints : List Hint) (p : HPath) : List Hint :=
  match Hint.new decode p with
  | some hint => hints ++ [hint]
  | none => hints

/-- One resource-creating operation performed by `thread_loader`
(`src/common/src/concurrent.rs`). -/
inductive ResOp where
  | createChannel
  | spawnThread (nm : String)
deriving DecidableEq

/-- The resource-creating operations `thread_loader` performs, in source
order: `channel::<I>()`, `channel::<O>()`, `spawn_thread_with_name("loader", …)`. -/
def thread_loader_ops : List ResOp :=
  [ResOp.createChannel, ResOp.createChannel, ResOp.spawnThread "loader"]

/-- The loop body of the thread spawned by `thread_loader`: receive inputs in
order until the sender is dropped, apply the (stateful) closure `f` to each,
and forward each output on the output channel only when `send_output` is
true.  `σ` is the closure's captured state; the returned list is what arrives
on the output channel. -/
def thread_loader_run {I O σ : Type} (send_output : Bool) (f : I → σ → O × σ)
    (inputs : List I) (st : σ) : List O × σ :=
  match inputs with
  | [] => ([], st)
  | i :: rest =>
    let a := f i st
    let b := thread_loader_run send_output f rest a.2
    (if send_output then a.1 :: b.1 else b.1, b.2)

/-- The loader of `Hints::reload`: `thread_loader(false, …)` with the
decode-and-push closure, run over the sent file paths. -/
def loaderRun (decode : Decoder) (hints : List Hint) (files : List HPath) : List Hint :=
  (thread_loader_run false (fun p st => ((), reloadWorker decode st p)) files hints).2

/-- `Hints::reload`: reset the index to 0, clear the list, list the directory,
sort the paths ascending (`files.sort()`), and send them to the loader in that
order; the state once loading has completed. -/
def Hints.reload (env : Env) (s : HintsState) : HintsState :=
  let files := (env.readDir s.path).insertionSort (· ≤ ·)
  { s with current_hint_idx := 0, hints := loaderRun env.decode [] files }

/-- `Hints::new`: fails unless the path is a directory, then starts from an
empty list and index 0 and reloads. -/
def Hints.new (env : Env) (path : HPath) : Option HintsState :=
  if env.isDir path then
    some (Hints.reload env { path := path, hints := [], current_hint_idx := 0 })
  else none

/-- `Hints::deallocate_current_texture`: if an element exists at the current
index, empty its texture cell. -/
def Hints.deallocate_current_texture (idx : Nat) (hints : List Hint) : List Hint :=
  match hints.get? idx with
  | some h => hints.set idx h.deallocate_texture
  | none => hints

/-- `Hints::have_hints`. -/
def Hints.have_hints (s : HintsState) : Bool :=
  !s.hints.isEmpty

/-- `Hints::handle_hints_event` (`src/common/src/app.rs`): on `NextHint` and
`PreviousHint`, when the list is non-empty, deallocate the current hint's
texture and step the index with wraparound; `Reload` reloads. -/
def Hints.handle_hints_event (env : Env) (s : HintsState) (event : HintsEvent) : HintsState :=
  match event with
  | HintsEvent.NextHint =>
    if Hints.have_hints s then
      let hints := Hints.deallocate_current_texture s.current_hint_idx s.hints
      { s with hints := hints, current_hint_idx := (s.current_hint_idx + 1) % hints.length }
    else s
  | HintsEvent.PreviousHint =>
    if Hints.have_hints s then
      let hints := Hints.deallocate_current_texture s.current_hint_idx s.hints
      { s with hints := hints,
               current_hint_idx := (s.current_hint_idx + hints.length - 1) % hints.length }
    else s
  | HintsEvent.Reload => Hints.reload env s

/-- The checked list access of `Hints::draw_ui`:
`hints.get(self.current_hint_idx)`. -/
def Hints.draw_ui_current (s : HintsState) : Option Hint :=
  s.hints.get? s.current_hint_idx

/-- `src/hints/src/app.rs`: the older `Hints { hints, current_hint_idx }`
variant (config-declared image list; no `path` field). -/
structure Hints2State where
  hints : List Hint
  current_hint_idx : Nat
deriving DecidableEq

/-- `src/hints/src/app.rs`: `HintsEvent` of the older variant (no `Reload`). -/
inductive Hints2Event where
  | NextHint
  | PreviousHint
deriving DecidableEq

/-- `Hints::handle_hints_event` of `src/hints/src/app.rs`: returns unchanged
when the list is empty, otherwise deallocates the current texture and steps
the index with wraparound. -/
def Hints2.handle_hints_event (s : Hints2State) (event : Hints2Event) : Hints2State :=
  if s.hints.isEmpty then s
  else
    match event with
    | Hints2Event.NextHint =>
      let hints := Hints.deallocate_current_texture s.current_hint_idx s.hints
      { s with hints := hints, current_hint_idx := (s.current_hint_idx + 1) % hints.length }
    | Hints2Event.PreviousHint =>
      let hints := Hints.deallocate_current_texture s.current_hint_idx s.hints
      { s with hints := hints,
               current_hint_idx := (s.current_hint_idx + hints.length - 1) % hints.length }

/-- `src/common/src/lib.rs`: `FROM_EDGE_PROPORTION`. -/
def FROM_EDGE_PROPORTION : Nat := 20

/-- `src/common/src/lib.rs`: `FROM_EDGE_MIN`. -/
def FROM_EDGE_MIN : Nat := 50

/-- `src/common/src/lib.rs`: `get_offset_from_edge(size, proportion, min) =
(size / proportion).min(min)`.  Rust `u32` division panics on a zero divisor;
the panic is modelled as `none`. -/
def get_offset_from_edge (size proportion mn : Nat) : Option Nat :=
  if proportion = 0 then none
  else some (Nat.min (size / proportion) mn)

/-- Positioning mode of the external `imgui_support_xplane` window
(`PositioningMode`): the plugin names `PopOut` and `VR` and treats every other
variant as free (`_ => Mode::Free`); `Other` stands in for any further
variant of the external type. -/
inductive PositioningMode where
  | Free
  | PopOut
  | VR
  | Other
deriving DecidableEq

/-- `src/plugin/src/lib.rs`: the persisted `Mode` enum (`Free`, `PopOut`,
`VR`). -/
inductive Mode where
  | Free
  | PopOut
  | VR
deriving DecidableEq

/-- `impl From<&PositioningMode> for Mode`: `PopOut`, `VR`, catch-all to
`Free`. -/
def Mode.ofPositioning : PositioningMode → Mode
  | PositioningMode.PopOut => Mode.PopOut
  | PositioningMode.VR => Mode.VR
  | _ => Mode.Free

/-- `impl From<&Mode> for PositioningMode`. -/
def PositioningMode.ofMode : Mode → PositioningMode
  | Mode.PopOut => PositioningMode.PopOut
  | Mode.VR => PositioningMode.VR
  | Mode.Free => PositioningMode.Free

/-- Window geometry (`imgui_support::geometry::Rect`), modelled by its four
edges. -/
structure Rect where
  left : Int
  top : Int
  right : Int
  bottom : Int
deriving DecidableEq

/-- The window handle (`imgui_support_xplane::ui::Ref`) as seen by the
plugin: positioning mode, geometry and visibility, the three attributes
save/load/reset read and write. -/
structure Window where
  mode : PositioningMode
  geometry : Rect
  visible : Bool
deriving DecidableEq

/-- `src/plugin/src/lib.rs`: the persisted `State { mode, position, visible }`. -/
structure State where
  mode : Mode
  position : Rect
  visible : Bool
deriving DecidableEq

/-- A TOML document value.  `toml::to_string_pretty` / `toml::from_str`
(third-party crate, outside `src/`) print and parse these; serialization is
modelled at the document level. -/
inductive Toml where
  | str (s : String)
  | int (i : Int)
  | bool (b : Bool)
  | table (fields : List (String × Toml))

/-- Modelled from the spec: the toml crate's serialization of `Mode`
(a "TOML-backed window-position save file"); the crate is outside `src/`. -/
def Mode.toToml : Mode → Toml
  | Mode.Free => Toml.str "Free"
  | Mode.PopOut => Toml.str "PopOut"
  | Mode.VR => Toml.str "VR"

/-- Modelled from the spec: the toml crate's deserialization of `Mode`. -/
def Mode.fromToml : Toml → Option Mode
  | Toml.str "Free" => some Mode.Free
  | Toml.str "PopOut" => some Mode.PopOut
  | Toml.str "VR" => some Mode.VR
  | _ => none

/-- Modelled from the spec: the toml crate's serialization of `Rect`. -/
def Rect.toToml (r : Rect) : Toml :=
  Toml.table [("left", Toml.int r.left), ("top", Toml.int r.top),
              ("right", Toml.int r.right), ("bottom", Toml.int r.bottom)]

/-- Modelled from the spec: the toml crate's deserialization of `Rect`. -/
def Rect.fromToml : Toml → Option Rect
  | Toml.table [("left", Toml.int l), ("top", Toml.int t),
                ("right", Toml.int r), ("bottom", Toml.int b)] =>
    some { left := l, top := t, right := r, bottom := b }
  | _ => none

/-- Modelled from the spec: the toml crate's serialization of `State`. -/
def State.toToml (s : State) : Toml :=
  Toml.table [("mode", s.mode.toToml), ("position", s.position.toToml),
              ("visible", Toml.bool s.visible)]

/-- Modelled from the spec: the toml crate's deserialization of `State`. -/
def State.fromToml : Toml → Option State
  | Toml.table [("mode", m), ("position", p), ("visible", Toml.bool v)] =>
    match Mode.fromToml m, Rect.fromToml p with
    | some mode, some position => some { mode := mode, position := position, visible := v }
    | _, _ => none
  | _ => none

/-- The filesystem holding the save files, as a map from path to stored TOML
document. -/
def FS : Type := String → Option Toml

/-- `std::fs::write` on the modelled filesystem. -/
def FS.write (fs : FS) (p : String) (v : Toml) : FS :=
  fun q => if q = p then some v else fs q

/-- The simulator environment read through `src/plugin/src/utils.rs`: the
`sim/aircraft/view/acf_ICAO` dataref string, the current aircraft filename
split as stem and extension (`set_extension("")` keeps the stem), and the
preferences directory path. -/
structure SimEnv where
  acf_icao : String
  acf_filename_stem : String
  prefs_path : String

/-- `get_current_aircraft_icao` (`src/plugin/src/utils.rs`): `None` exactly
when the dataref string is empty. -/
def get_current_aircraft_icao (env : SimEnv) : Option String :=
  if env.acf_icao = "" then none else some env.acf_icao

/-- `get_current_aircraft_id` (`src/plugin/src/lib.rs`): the ICAO code, or
the aircraft filename without its extension when the ICAO is absent. -/
def get_current_aircraft_id (env : SimEnv) : String :=
  match get_current_aircraft_icao env with
  | some icao => icao
  | none => env.acf_filename_stem

/-- `get_state_path` (`src/plugin/src/lib.rs`): `{prefs}/hints/{id}.toml`.
`get_save_directory`'s `create_dir_all` is modelled as succeeding. -/
def get_state_path (env : SimEnv) : String :=
  env.prefs_path ++ "/hints/" ++ get_current_aircraft_id env ++ ".toml"

/-- `src/plugin/src/lib.rs`: `SystemWrapper { system, default_geometry }`;
of the wrapped `System` only the window is relevant here. -/
structure SystemWrapper where
  window : Window
  default_geometry : Rect
deriving DecidableEq

/-- `impl From<&Ref> for State`: capture the window's mode (projected to
`Mode`), geometry and visibility. -/
def State.fromWindow (w : Window) : State :=
  { mode := Mode.ofPositioning w.mode, position := w.geometry, visible := w.visible }

/-- `SystemWrapper::save`: serialize the window state and write it to the
per-aircraft state path. -/
def SystemWrapper.save (w : SystemWrapper) (env : SimEnv) (fs : FS) : FS :=
  FS.write fs (get_state_path env) (State.toToml (State.fromWindow w.window))

/-- `SystemWrapper::load`: read and parse the state file; on success set the
window's positioning mode, geometry and visibility; on any failure leave the
wrapper unchanged (`quietly` only silences a log line). -/
def SystemWrapper.load (w : SystemWrapper) (quietly : Bool) (env : SimEnv) (fs : FS) :
    SystemWrapper :=
  match fs (get_state_path env) with
  | some doc =>
    match State.fromToml doc with
    | some st =>
      { w with window := { mode := PositioningMode.ofMode st.mode,
                           geometry := st.position, visible := st.visible } }
    | none => w
  | none => w

/-- `SystemWrapper::new`: capture the window's geometry as the default, then
`load(true)`. -/
def SystemWrapper.new (w : Window) (env : SimEnv) (fs : FS) : SystemWrapper :=
  SystemWrapper.load { window := w, default_geometry := w.geometry } true env fs

/-- `SystemWrapper::reset`: positioning mode `Free`, visible, and the default
geometry captured at construction. -/
def SystemWrapper.reset (w : SystemWrapper) : SystemWrapper :=
  { w with window := { mode := PositioningMode.Free,
                       geometry := w.default_geometry, visible := true } }

/-- One command of the menu-driven window-state flow. -/
inductive WOp where
  | save
  | load (quietly : Bool)
  | reset

/-- Apply one window-state command to the wrapper and filesystem. -/
def applyWOp (env : SimEnv) : SystemWrapper × FS → WOp → SystemWrapper × FS
  | (w, fs), WOp.save => (w, SystemWrapper.save w env fs)
  | (w, fs), WOp.load q => (SystemWrapper.load w q env fs, fs)
  | (w, fs), WOp.reset => (SystemWrapper.reset w, fs)

/-- Apply a sequence of window-state commands. -/
def applyWOps (env : SimEnv) (ops : List WOp) (p : SystemWrapper × FS) :
    SystemWrapper × FS :=
  ops.foldl (applyWOp env) p

/-- The index invariant of the app: the current index is 0 (its value after
`new`/`reload` and on an empty list) or in bounds for the hints list. -/
def HintsInv (s : HintsState) : Prop :=
  s.current_hint_idx = 0 ∨ s.current_hint_idx < s.hints.length

/-- One asynchronous step of the running app: a handled event on the UI
thread, or the loader thread appending a freshly decoded hint to the shared
list. -/
inductive HintsStep (env : Env) : HintsState → HintsState → Prop where
  | event (s : HintsState) (e : HintsEvent) :
      HintsStep env s (Hints.handle_hints_event env s e)
  | loaderPush (s : HintsState) (h : Hint) :
      HintsStep env s { s with hints := s.hints ++ [h] }

/-- Reachability through any interleaving of events and loader appends. -/
inductive HintsReachable (env : Env) : HintsState → HintsState → Prop where
  | refl (s : HintsState) : HintsReachable env s s
  | tail {s t u : HintsState} : HintsReachable env s t → HintsStep env t u →
      HintsReachable env s u

/-- A concrete environment: an empty directory whose every path decodes to
nothing. -/
def env0 : Env :=
  { readDir := fun _ => [], decode := fun _ => none, isDir := fun _ => true }

/-- A concrete decoder that fails on path 1 and succeeds elsewhere. -/
def d0 : Decoder :=
  fun p => if p = 1 then none else some { width := 1, height := 1, data := [p] }

/-- A concrete hint whose texture handle is currently cached. -/
def c1Hint : Hint :=
  { image := { width := 1, height := 1, data := [0] }, texture_id := some { id := 5 } }

/-- A concrete state holding one hint with a cached texture handle. -/
def c1State : HintsState :=
  { path := 0, hints := [c1Hint], current_hint_idx := 0 }

/-- The state produced by `Hints::new` on an empty directory. -/
def emptyDirState : HintsState :=
  { path := 0, hints := [], current_hint_idx := 0 }

/-- An empty state of the older `src/hints` variant. -/
def hints2Empty : Hints2State :=
  { hints := [], current_hint_idx := 0 }

/-- A concrete freshly decoded hint (what `Hint::new d0 0` yields). -/
def h0 : Hint :=
  { image := { width := 1, height := 1, data := [0] }, texture_id := none }

/-! Helper lemmas. -/

theorem loaderRun_cons (decode : Decoder) (hints : List Hint) (p : HPath)
    (rest : List HPath) :
    loaderRun decode hints (p :: rest) = loaderRun decode (reloadWorker decode hints p) rest :=
  rfl

theorem loaderRun_eq_filterMap (decode : Decoder) (files : List HPath) :
    ∀ hints, loaderRun decode hints files = hints ++ files.filterMap (Hint.new decode) := by
  induction files with
  | nil => intro hints; simp [loaderRun, thread_loader_run]
  | cons p rest ih =>
    intro hints
    rw [loaderRun_cons, ih, List.filterMap_cons]
    unfold reloadWorker
    cases h : Hint.new decode p with
    | some hint => simp [List.append_assoc]
    | none => simp

theorem deallocate_current_texture_length (idx : Nat) (hints : List Hint) :
    (Hints.deallocate_current_texture idx hints).length = hints.length := by
  unfold Hints.deallocate_current_texture
  cases h : hints.get? idx <;> simp

theorem deallocate_current_texture_of_lt (hints : List Hint) (idx : Nat)
    (h : idx < hints.length) :
    Hints.deallocate_current_texture idx hints
      = hints.set idx (hints.get ⟨idx, h⟩).deallocate_texture := by
  unfold Hints.deallocate_current_texture
  rw [List.get?_eq_get h]

theorem have_hints_eq_true (s : HintsState) (h : s.hints ≠ []) :
    Hints.have_hints s = true := by
  simp [Hints.have_hints, List.isEmpty_eq_true, h]

theorem have_hints_eq_false (s : HintsState) (h : s.hints = []) :
    Hints.have_hints s = false := by
  simp [Hints.have_hints, List.isEmpty_eq_true, h]

theorem handle_next_eq (env : Env) (s : HintsState) (h : s.hints ≠ []) :
    Hints.handle_hints_event env s HintsEvent.NextHint
      = { s with hints := Hints.deallocate_current_texture s.current_hint_idx s.hints,
                 current_hint_idx := (s.current_hint_idx + 1) % s.hints.length } := by
  unfold Hints.handle_hints_event
  rw [have_hints_eq_true s h]
  simp [deallocate_current_texture_length]

theorem handle_prev_eq (env : Env) (s : HintsState) (h : s.hints ≠ []) :
    Hints.handle_hints_event env s HintsEvent.PreviousHint
      = { s with hints := Hints.deallocate_current_texture s.current_hint_idx s.hints,
                 current_hint_idx :=
                   (s.current_hint_idx + s.hints.length - 1) % s.hints.length } := by
  unfold Hints.handle_hints_event
  rw [have_hints_eq_true s h]
  simp [deallocate_current_texture_length]

theorem handle_next_empty (env : Env) (s : HintsState) (h : s.hints = []) :
    Hints.handle_hints_event env s HintsEvent.NextHint = s := by
  unfold Hints.handle_hints_event
  rw [have_hints_eq_false s h]
  simp

theorem handle_prev_empty (env : Env) (s : HintsState) (h : s.hints = []) :
    Hints.handle_hints_event env s HintsEvent.PreviousHint = s := by
  unfold Hints.handle_hints_event
  rw [have_hints_eq_false s h]
  simp

theorem hints2_handle_empty (s : Hints2State) (h : s.hints = []) (e : Hints2Event) :
    Hints2.handle_hints_event s e = s := by
  unfold Hints2.handle_hints_event
  simp [h]

theorem hintsInv_reload (env : Env) (s : HintsState) : HintsInv (Hints.reload env s) :=
  Or.inl rfl

theorem hintsInv_handle (env : Env) (s : HintsState) (hs : HintsInv s) (e : HintsEvent) :
    HintsInv (Hints.handle_hints_event env s e) := by
  cases e with
  | Reload => exact Or.inl rfl
  | NextHint =>
    by_cases h : s.hints = []
    · rw [handle_next_empty env s h]; exact hs
    · rw [handle_next_eq env s h]
      right
      simp only [deallocate_current_texture_length]
      exact Nat.mod_lt _ (List.length_pos.mpr h)
  | PreviousHint =>
    by_cases h : s.hints = []
    · rw [handle_prev_empty env s h]; exact hs
    · rw [handle_prev_eq env s h]
      right
      simp only [deallocate_current_texture_length]
      exact Nat.mod_lt _ (List.length_pos.mpr h)

theorem hintsInv_push (s : HintsState) (h : Hint) (hs : HintsInv s) :
    HintsInv { s with hints := s.hints ++ [h] } := by
  cases hs with
  | inl h0 => exact Or.inl h0
  | inr hlt =>
    right
    simp only [List.length_append, List.length_cons, List.length_nil]
    omega

theorem hintsInv_reachable (env : Env) {s0 s : HintsState} (h0 : HintsInv s0)
    (hr : HintsReachable env s0 s) : HintsInv s := by
  induction hr with
  | refl => exact h0
  | tail _ hstep ih =>
    cases hstep with
    | event e => exact hintsInv_handle env _ ih e
    | loaderPush h => exact hintsInv_push _ h ih

theorem hintsInv_new (env : Env) (path : HPath) (s0 : HintsState)
    (h : Hints.new env path = some s0) : HintsInv s0 := by
  unfold Hints.new at h
  split at h
  · injection h with h
    subst h
    exact Or.inl rfl
  · cases h

theorem draw_ui_finds (s : HintsState) (hinv : HintsInv s) (hne : s.hints ≠ []) :
    (Hints.draw_ui_current s).isSome = true := by
  unfold Hints.draw_ui_current
  rcases hinv with h0 | hlt
  · rw [h0, List.get?_eq_get (List.length_pos.mpr hne)]; rfl
  · rw [List.get?_eq_get hlt]; rfl

theorem state_toml_roundtrip (s : State) : State.fromToml (State.toToml s) = some s := by
  rcases s with ⟨m, ⟨l, t, r, b⟩, v⟩
  cases m <;> rfl

theorem load_default_geometry (w : SystemWrapper) (q : Bool) (env : SimEnv) (fs : FS) :
    (SystemWrapper.load w q env fs).default_geometry = w.default_geometry := by
  unfold SystemWrapper.load
  cases hfs : fs (get_state_path env) with
  | none => rfl
  | some doc => cases hst : State.fromToml doc <;> simp [hst]

theorem new_default_geometry (w : Window) (env : SimEnv) (fs : FS) :
    (SystemWrapper.new w env fs).default_geometry = w.geometry :=
  load_default_geometry _ _ _ _

theorem applyWOps_default_geometry (env : SimEnv) (ops : List WOp) :
    ∀ p : SystemWrapper × FS,
      (applyWOps env ops p).1.default_geometry = p.1.default_geometry := by
  induction ops with
  | nil => intro p; rfl
  | cons op rest ih =>
    intro p
    show (applyWOps env rest (applyWOp env p op)).1.default_geometry = _
    rw [ih]
    rcases p with ⟨w, fs⟩
    cases op with
    | save => rfl
    | load q => exact load_default_geometry w q env fs
    | reset => rfl

/-! Claim theorems. -/

/-- Claim C1, counterexample: the claim says that on a non-empty list
`handle_hints_event(NextHint)` changes no field of the state other than the
current index, but the handler first deallocates the current hint's texture,
clearing its cached handle.  Concrete input: a state with one hint whose
texture handle is cached; the index is set to (0 + 1) mod 1 = 0 as claimed,
yet the hints list changes. -/
theorem C1_counterexample :
    (Hints.handle_hints_event env0 c1State HintsEvent.NextHint).current_hint_idx
        = (c1State.current_hint_idx + 1) % c1State.hints.length
    ∧ ¬ (Hints.handle_hints_event env0 c1State HintsEvent.NextHint).hints
        = c1State.hints := by
  constructor
  · decide
  · decide

/-- Claim C1, amended: for every state whose hints list has length n with
current index i < n, NextHint sets the index to (i + 1) mod n and
PreviousHint to (i + n - 1) mod n, so repeated events cycle through all n
hints and wrap around at both ends; the path is unchanged, and the only
other change is that the hint at the old index has its cached texture handle
cleared (deallocated). -/
theorem C1_cycling_amended (env : Env) (s : HintsState)
    (hidx : s.current_hint_idx < s.hints.length) :
    (Hints.handle_hints_event env s HintsEvent.NextHint).current_hint_idx
        = (s.current_hint_idx + 1) % s.hints.length
    ∧ (Hints.handle_hints_event env s HintsEvent.PreviousHint).current_hint_idx
        = (s.current_hint_idx + s.hints.length - 1) % s.hints.length
    ∧ (Hints.handle_hints_event env s HintsEvent.NextHint).path = s.path
    ∧ (Hints.handle_hints_event env s HintsEvent.PreviousHint).path = s.path
    ∧ (Hints.handle_hints_event env s HintsEvent.NextHint).hints
        = s.hints.set s.current_hint_idx
            (s.hints.get ⟨s.current_hint_idx, hidx⟩).deallocate_texture
    ∧ (Hints.handle_hints_event env s HintsEvent.PreviousHint).hints
        = s.hints.set s.current_hint_idx
            (s.hints.get ⟨s.current_hint_idx, hidx⟩).deallocate_texture := by
  have hne : s.hints ≠ [] := by
    intro h
    rw [h] at hidx
    exact Nat.not_lt_zero _ hidx
  rw [handle_next_eq env s hne, handle_prev_eq env s hne,
    deallocate_current_texture_of_lt s.hints s.current_hint_idx hidx]
  exact ⟨rfl, rfl, rfl, rfl, rfl, rfl⟩

/-- Claim C1, witness for the amended theorem at the concrete one-hint
state. -/
theorem C1_witness :
    c1State.current_hint_idx < c1State.hints.length
    ∧ (Hints.handle_hints_event env0 c1State HintsEvent.NextHint).current_hint_idx
        = (c1State.current_hint_idx + 1) % c1State.hints.length :=
  ⟨by decide, (C1_cycling_amended env0 c1State (by decide)).1⟩

/-- Claim C2, counterexample: the claim says `thread_loader` builds exactly
one channel, but it calls `channel()` twice — once for the input paths and
once for the (here unused) outputs. -/
theorem C2_counterexample :
    thread_loader_ops.count ResOp.createChannel = 2
    ∧ ¬ thread_loader_ops.count ResOp.createChannel = 1 := by
  constructor
  · decide
  · decide

/-- Claim C2, amended: the background loader built by `thread_loader`
consists of exactly one worker thread and two channels (an input channel on
which the single producer sends the file paths, and an output channel that is
unused when `send_output` is false); the single consumer thread processes
each received path with the closure, which decodes it and appends the result
to the shared list on success. -/
theorem C2_loader_structure (decode : Decoder) (hints : List Hint) (files : List HPath) :
    thread_loader_ops.count (ResOp.spawnThread "loader") = 1
    ∧ thread_loader_ops.count ResOp.createChannel = 2
    ∧ loaderRun decode hints files = hints ++ files.filterMap (Hint.new decode)
    ∧ (thread_loader_run false (fun p st => ((), reloadWorker decode st p)) files hints).1
        = [] := by
  refine ⟨by decide, by decide, loaderRun_eq_filterMap decode files hints, ?_⟩
  induction files generalizing hints with
  | nil => rfl
  | cons p rest ih => exact ih (reloadWorker decode hints p)

/-- Claim C3: a file whose decoding fails contributes no entry and loading
continues: the final list is exactly the successfully decoded images
(`filterMap`), and removing a failing file from the sent sequence does not
change the result, so one file's failure never affects another file's
loading. -/
theorem C3_decode_failures_skipped (decode : Decoder) (files : List HPath) :
    loaderRun decode [] files = files.filterMap (Hint.new decode)
    ∧ ∀ pre post p, decode p = none →
        loaderRun decode [] (pre ++ p :: post) = loaderRun decode [] (pre ++ post) := by
  constructor
  · rw [loaderRun_eq_filterMap decode files []]
    rfl
  · intro pre post p hp
    rw [loaderRun_eq_filterMap, loaderRun_eq_filterMap]
    have hnew : Hint.new decode p = none := by
      unfold Hint.new
      rw [hp]
      rfl
    simp [List.filterMap_append, List.filterMap_cons, hnew]

/-- Claim C3, witness: under decoder `d0` (which fails exactly on path 1),
dropping the failing path 1 from the sent files leaves the loaded list
unchanged. -/
theorem C3_witness :
    loaderRun d0 [] ([0] ++ 1 :: [2]) = loaderRun d0 [] ([0] ++ [2]) :=
  (C3_decode_failures_skipped d0 [0, 1, 2]).2 [0] [2] 1 (by decide)

/-- Claim C5: `reload` keeps the path, resets the current index to 0, and
produces as hints exactly the decodable images of the directory listing taken
in ascending path order (the listing is sorted and sent in that order). -/
theorem C5_reload_sorted_order (env : Env) (s : HintsState) :
    (Hints.reload env s).path = s.path
    ∧ (Hints.reload env s).current_hint_idx = 0
    ∧ (Hints.reload env s).hints
        = ((env.readDir s.path).insertionSort (· ≤ ·)).filterMap (Hint.new env.decode)
    ∧ List.Sorted (· ≤ ·) ((env.readDir s.path).insertionSort (· ≤ ·))
    ∧ ((env.readDir s.path).insertionSort (· ≤ ·)).Perm (env.readDir s.path) := by
  refine ⟨rfl, rfl, ?_, List.sorted_insertionSort _ _, List.perm_insertionSort _ _⟩
  show loaderRun env.decode [] _ = _
  rw [loaderRun_eq_filterMap]
  rfl

/-- Claim C9: with an empty hints list, NextHint and PreviousHint leave the
state entirely unchanged (the emptiness guard keeps the modulo-by-length
computation unreached), in both `src/common/src/app.rs` and
`src/hints/src/app.rs`. -/
theorem C9_empty_list_noop (env : Env) (s : HintsState) (h : s.hints = [])
    (s2 : Hints2State) (h2 : s2.hints = []) :
    Hints.handle_hints_event env s HintsEvent.NextHint = s
    ∧ Hints.handle_hints_event env s HintsEvent.PreviousHint = s
    ∧ Hints2.handle_hints_event s2 Hints2Event.NextHint = s2
    ∧ Hints2.handle_hints_event s2 Hints2Event.PreviousHint = s2 :=
  ⟨handle_next_empty env s h, handle_prev_empty env s h,
    hints2_handle_empty s2 h2 Hints2Event.NextHint,
    hints2_handle_empty s2 h2 Hints2Event.PreviousHint⟩

/-- Claim C9, witness at concrete empty states. -/
theorem C9_witness :
    emptyDirState.hints = []
    ∧ Hints.handle_hints_event env0 emptyDirState HintsEvent.NextHint = emptyDirState
    ∧ Hints2.handle_hints_event hints2Empty Hints2Event.PreviousHint = hints2Empty :=
  ⟨rfl, (C9_empty_list_noop env0 emptyDirState rfl hints2Empty rfl).1,
    (C9_empty_list_noop env0 emptyDirState rfl hints2Empty rfl).2.2.2⟩

/-- Claim C10: `get_offset_from_edge(size, proportion, min)` equals the
smaller of `size / proportion` (integer division) and `min`, so the returned
offset never exceeds the `min` argument — a cap at `FROM_EDGE_MIN = 50`, not
a lower bound. -/
theorem C10_offset_capped (size proportion mn : Nat) (h : proportion ≠ 0) :
    get_offset_from_edge size proportion mn = some (Nat.min (size / proportion) mn)
    ∧ (∀ r, get_offset_from_edge size proportion mn = some r → r ≤ mn)
    ∧ FROM_EDGE_MIN = 50 ∧ FROM_EDGE_PROPORTION = 20 := by
  refine ⟨?_, ?_, rfl, rfl⟩
  · simp [get_offset_from_edge, h]
  · intro r hr
    simp only [get_offset_from_edge, if_neg h, Option.some.injEq] at hr
    exact hr ▸ Nat.min_le_right (size / proportion) mn

/-- Claim C10, witness at a 1000-pixel screen with the shipped constants. -/
theorem C10_witness :
    FROM_EDGE_PROPORTION ≠ 0
    ∧ get_offset_from_edge 1000 FROM_EDGE_PROPORTION FROM_EDGE_MIN
        = some (Nat.min (1000 / FROM_EDGE_PROPORTION) FROM_EDGE_MIN) :=
  ⟨by decide, (C10_offset_capped 1000 FROM_EDGE_PROPORTION FROM_EDGE_MIN (by decide)).1⟩

/-- Claim C4: `save` writes the window's mode, geometry and visibility as a
TOML document to `{prefs}/hints/{id}.toml`, where the id is the aircraft's
ICAO code or, when the ICAO is empty, the aircraft filename without its
extension; a subsequent `load` of that file (from any wrapper under the same
aircraft) restores exactly the saved mode, geometry and visibility. -/
theorem C4_save_load_roundtrip (w w2 : SystemWrapper) (q : Bool) (env : SimEnv) (fs : FS) :
    get_state_path env
        = env.prefs_path ++ "/hints/"
          ++ (if env.acf_icao = "" then env.acf_filename_stem else env.acf_icao) ++ ".toml"
    ∧ SystemWrapper.save w env fs (get_state_path env)
        = some (State.toToml (State.fromWindow w.window))
    ∧ (SystemWrapper.load w2 q env (SystemWrapper.save w env fs)).window.mode
        = PositioningMode.ofMode (State.fromWindow w.window).mode
    ∧ (SystemWrapper.load w2 q env (SystemWrapper.save w env fs)).window.geometry
        = w.window.geometry
    ∧ (SystemWrapper.load w2 q env (SystemWrapper.save w env fs)).window.visible
        = w.window.visible := by
  have hpath : get_state_path env
      = env.prefs_path ++ "/hints/"
        ++ (if env.acf_icao = "" then env.acf_filename_stem else env.acf_icao) ++ ".toml" := by
    by_cases hi : env.acf_icao = ""
      <;> simp [get_state_path, get_current_aircraft_id, get_current_aircraft_icao, hi]
  have hread : SystemWrapper.save w env fs (get_state_path env)
      = some (State.toToml (State.fromWindow w.window)) := by
    simp [SystemWrapper.save, FS.write]
  have hload : SystemWrapper.load w2 q env (SystemWrapper.save w env fs)
      = { w2 with window :=
            { mode := PositioningMode.ofMode (State.fromWindow w.window).mode,
              geometry := (State.fromWindow w.window).position,
              visible := (State.fromWindow w.window).visible } } := by
    unfold SystemWrapper.load
    rw [hread]
    simp [state_toml_roundtrip]
  exact ⟨hpath, hread, by rw [hload], by rw [hload]; rfl, by rw [hload]; rfl⟩

/-- Claim C6, counterexample: the claim says the first `texture_id()` call
caches `None` on failure and that later calls never invoke `create_texture`
again; but a failed creation leaves the cell holding `None`, which is
indistinguishable from "never tried", so the second call invokes
`create_texture` again. -/
theorem C6_counterexample :
    (Hint.textureLookup none none).invoked = true
    ∧ (Hint.textureLookup none (Hint.textureLookup none none).cell).invoked = true := by
  constructor
  · decide
  · decide

/-- Claim C6, amended: `Hint::new` creates no texture (the cell starts
empty); the first `texture_id()` call invokes `create_texture` and stores its
result in the cell; while the cell holds a handle, `texture_id()` returns it
without invoking `create_texture` (so after a successful creation the second
call does not invoke it); after a failed creation the cell is left empty and
the next call invokes `create_texture` again. -/
theorem C6_lazy_texture_amended (decode : Decoder) (p : HPath) (h : Hint)
    (create : Option TextureId) (t : TextureId) (hn : Hint.new decode p = some h) :
    h.texture_id = none
    ∧ (Hint.textureLookup create none).invoked = true
    ∧ (Hint.textureLookup create none).result = create
    ∧ (Hint.textureLookup create none).cell = create
    ∧ (Hint.textureLookup create (some t)).invoked = false
    ∧ (Hint.textureLookup create (some t)).result = some t
    ∧ (Hint.textureLookup create (some t)).cell = some t
    ∧ (Hint.textureLookup (some t) ((Hint.textureLookup (some t) none).cell)).invoked = false
    ∧ (Hint.textureLookup none ((Hint.textureLookup none none).cell)).invoked = true := by
  refine ⟨?_, rfl, rfl, rfl, rfl, rfl, rfl, rfl, rfl⟩
  rcases Option.map_eq_some'.mp hn with ⟨img, _, hf⟩
  rw [← hf]

/-- Claim C6, witness at the concrete decoder `d0` and handle 7. -/
theorem C6_witness :
    Hint.new d0 0 = some h0
    ∧ h0.texture_id = none
    ∧ (Hint.textureLookup (some { id := 7 })
        ((Hint.textureLookup (some { id := 7 }) none).cell)).invoked = false :=
  ⟨by decide,
    (C6_lazy_texture_amended d0 0 h0 (some { id := 7 }) { id := 7 } (by decide)).1,
    (C6_lazy_texture_amended d0 0 h0 (some { id := 7 }) { id := 7 } (by decide)).2.2.2.2.2.2.2.1⟩

/-- Claim C7: after any sequence of save/load/reset commands following
construction, `reset` puts the window in positioning mode `Free`, makes it
visible, and restores the geometry captured from the window when the
`SystemWrapper` was constructed. -/
theorem C7_reset_restores_defaults (w0 : Window) (env : SimEnv) (fs fs0 : FS)
    (ops : List WOp) :
    (SystemWrapper.reset
        (applyWOps env ops (SystemWrapper.new w0 env fs, fs0)).1).window
      = { mode := PositioningMode.Free, geometry := w0.geometry, visible := true } := by
  have h := applyWOps_default_geometry env ops (SystemWrapper.new w0 env fs, fs0)
  rw [new_default_geometry] at h
  unfold SystemWrapper.reset
  rw [h]

/-- Claim C8: every state reachable through `new`, `reload`,
`handle_hints_event` and loader appends satisfies the invariant that the
current index is 0 or strictly below the list length, and therefore
`draw_ui`'s checked access finds the current hint whenever the list is
non-empty. -/
theorem C8_index_invariant (env : Env) (path : HPath) (s0 s : HintsState)
    (hnew : Hints.new env path = some s0) (hr : HintsReachable env s0 s) :
    HintsInv s ∧ (s.hints ≠ [] → (Hints.draw_ui_current s).isSome = true) := by
  have hinv := hintsInv_reachable env (hintsInv_new env path s0 hnew) hr
  exact ⟨hinv, fun hne => draw_ui_finds s hinv hne⟩

/-- Claim C8, witness: the initial state on an empty directory is reachable
and satisfies the invariant. -/
theorem C8_witness :
    HintsInv emptyDirState
    ∧ (emptyDirState.hints ≠ [] → (Hints.draw_ui_current emptyDirState).isSome = true) :=
  C8_index_invariant env0 0 emptyDirState emptyDirState (by decide)
    (HintsReachable.refl emptyDirState)
